import Mathlib

/-!
# Verification of `backend/scripts/print_upload_docs.py`

A shallow embedding of the diagnostic script `print_upload_docs.py`.
The script is a single linear procedure (`main`) with early-exit error
handling:

1. check that `backend/.env` exists (else print a message naming the path
   and exit 1);
2. `load_dotenv` and read `MONGODB_URI` (if absent or falsy, print a
   message and exit 1);
3. open a `MongoClient` and `ping` (on exception print the error and
   exit 1);
4. resolve the database: `client.get_default_database()`, and if that
   yields nothing, parse `uri.split('/')[-1].split('?')[0]` (if empty,
   print a resolution-failure message plus the error and exit 1);
5. print up to 50 documents from `uploadmasters`, then up to 50 from
   `uploadconsents` (an empty-result notice when a collection is empty);
6. close the client and exit 0.

Python strings are embedded as `List Char`.  The environment (file
system, environment variables, database server) is a `World` record;
external library calls (`load_dotenv`, `MongoClient`, `ping`,
`get_default_database`, `find`) are interpreted against it.  The run
result records the console output as a trace of abstract output events,
the process exit code, and which effects were performed.
-/

namespace PrintUploadDocs

/-- Python's `s.split(sep)` for a single-character separator `sep`,
on strings embedded as `List Char`.  Like Python (and unlike a
"words"-style splitter) it keeps empty segments: `"".split('/') = ['']`,
`"a/".split('/') = ['a', '']`. -/
def pySplit (sep : Char) : List Char → List (List Char)
  | [] => [[]]
  | c :: rest =>
    if c = sep then
      [] :: pySplit sep rest
    else
      match pySplit sep rest with
      | [] => [[c]]
      | h :: t => (c :: h) :: t

/-- Python's `lst[-1]` on the (never-empty) result of `split`. -/
def pyLast (l : List (List Char)) : List Char := l.getLastD []

/-- Python's `lst[0]` on the (never-empty) result of `split`. -/
def pyHead (l : List (List Char)) : List Char := l.headD []

/-- The database-name fallback parse from `main` (lines 66-72):
`path = uri.split('/')[-1]; dbname = path.split('?')[0]`; the result is
`none` when `dbname` is empty (the `raise ValueError` branch), otherwise
the parsed name. -/
def parseDbFromUri (uri : List Char) : Option (List Char) :=
  let path := pyLast (pySplit '/' uri)
  let dbname := pyHead (pySplit '?' path)
  if dbname = [] then none else some dbname

/-- Database-name resolution from `main` (lines 57-76): prefer the
default database reported by `client.get_default_database()` (modelled
as the `Option`-valued oracle `defaultDb`, `none` when the call raises),
otherwise fall back to parsing the URI. -/
def resolveDb (defaultDb : Option (List Char)) (uri : List Char) :
    Option (List Char) :=
  match defaultDb with
  | some d => some d
  | none => parseDbFromUri uri

/-- The fixed environment-file path `repo_root / '.env'` where
`repo_root = Path(__file__).resolve().parents[1]`, i.e. the `backend`
directory containing the script's `scripts` directory (lines 34-35). -/
def envPath : List Char := String.toList "backend/.env"

/-- The document limit of both queries: `.limit(50)` (lines 84 and 91). -/
def docLimit : Nat := 50

/-- One console output event of the script.  Each constructor stands for
one `print` call of `main`; payload-carrying constructors record the
data interpolated into the printed text. -/
inductive Out (Doc : Type) where
  /-- `'Env file not found at {path}. Please ensure backend/.env exists.'` -/
  | envFileNotFound (path : List Char)
  /-- `'MONGODB_URI not set in backend/.env'` -/
  | mongoUriNotSet
  /-- `'Connecting to MongoDB...'` -/
  | connecting
  /-- `'Failed to connect to MongoDB: {err}'` -/
  | failedToConnect (err : List Char)
  /-- `'Could not determine database from URI. Please include the database name in MONGODB_URI.'` -/
  | couldNotDetermineDb
  /-- `'Error: {e}'` -/
  | errLine (err : List Char)
  /-- `'Connected to database: {db.name}'` -/
  | connectedTo (name : List Char)
  /-- `'--- UploadMaster documents (up to 50) ---'` -/
  | masterHeader
  /-- `'(no UploadMaster documents found)'` -/
  | noMasters
  /-- `dumps(masters, indent=2)`: the serialized UploadMaster documents. -/
  | masterDocs (docs : List Doc)
  /-- `'--- UploadConsent documents (up to 50) ---'` -/
  | consentHeader
  /-- `'(no UploadConsent documents found)'` -/
  | noConsents
  /-- `dumps(consents, indent=2)`: the serialized UploadConsent documents. -/
  | consentDocs (docs : List Doc)
  /-- `'Done.'` -/
  | done
  deriving DecidableEq, Repr

/-- The external environment a run of the script observes.  Documents
are opaque (`Doc` is a type parameter): the tool imposes no schema. -/
structure World (Doc : Type) where
  /-- Whether `backend/.env` exists (`env_path.exists()`, line 37). -/
  envFileExists : Bool
  /-- `os.environ.get('MONGODB_URI')` after `load_dotenv`: `none` when
  the variable is absent, `some v` when set to `v` (possibly empty). -/
  mongoUri : Option (List Char)
  /-- Whether `MongoClient(uri, ...)` plus `client.admin.command('ping')`
  succeeds (lines 50-52). -/
  connectOk : Bool
  /-- The exception text when connecting or pinging fails (line 54). -/
  connectError : List Char
  /-- `client.get_default_database()` (line 60): `none` when the call
  raises (no default database embedded in the URI). -/
  defaultDb : Option (List Char)
  /-- The documents of the `uploadmasters` collection, in the order the
  unfiltered query returns them. -/
  uploadmasters : List Doc
  /-- The documents of the `uploadconsents` collection, in the order the
  unfiltered query returns them. -/
  uploadconsents : List Doc

/-- The observable outcome of one run of `main`: the console output (in
order), the process exit code, and which external effects happened. -/
structure RunResult (Doc : Type) where
  output : List (Out Doc)
  exitCode : Nat
  /-- Whether `load_dotenv(env_path)` was called (line 41). -/
  loadedDotenv : Bool
  /-- Whether `MongoClient(uri, ...)` was constructed (line 50). -/
  connectAttempted : Bool
  /-- Whether `uploadmasters` was queried (line 84). -/
  queriedMasters : Bool
  /-- Whether `uploadconsents` was queried (line 91). -/
  queriedConsents : Bool
  /-- Whether `client.close()` was called (line 97). -/
  closedClient : Bool
  deriving DecidableEq, Repr

/-- Python's `not uri` on the result of `os.environ.get`: true when the
variable is absent (`None`) or set to the empty string (line 44). -/
def uriFalsy : Option (List Char) → Bool
  | none => true
  | some s => s = []

/-- The success-path console output (lines 78-98): connected banner,
UploadMaster section, UploadConsent section, `Done.`. -/
def successOutput {Doc : Type} (name : List Char)
    (masters consents : List Doc) : List (Out Doc) :=
  [Out.connecting, Out.connectedTo name, Out.masterHeader] ++
    (if masters.isEmpty then [Out.noMasters] else [Out.masterDocs masters]) ++
    [Out.consentHeader] ++
    (if consents.isEmpty then [Out.noConsents] else [Out.consentDocs consents]) ++
    [Out.done]

/-- The embedding of `main` (lines 33-98): a pure function from the
external environment to the run's observable outcome. -/
def run {Doc : Type} (w : World Doc) : RunResult Doc :=
  if ¬ w.envFileExists then
    { output := [Out.envFileNotFound envPath], exitCode := 1,
      loadedDotenv := false, connectAttempted := false,
      queriedMasters := false, queriedConsents := false,
      closedClient := false }
  else if uriFalsy w.mongoUri then
    { output := [Out.mongoUriNotSet], exitCode := 1,
      loadedDotenv := true, connectAttempted := false,
      queriedMasters := false, queriedConsents := false,
      closedClient := false }
  else
    let uri := w.mongoUri.getD []
    if ¬ w.connectOk then
      { output := [Out.connecting, Out.failedToConnect w.connectError],
        exitCode := 1,
        loadedDotenv := true, connectAttempted := true,
        queriedMasters := false, queriedConsents := false,
        closedClient := false }
    else
      match resolveDb w.defaultDb uri with
      | none =>
        { output := [Out.connecting, Out.couldNotDetermineDb,
            Out.errLine (String.toList "No database name in URI")],
          exitCode := 1,
          loadedDotenv := true, connectAttempted := true,
          queriedMasters := false, queriedConsents := false,
          closedClient := false }
      | some name =>
        let masters := w.uploadmasters.take docLimit
        let consents := w.uploadconsents.take docLimit
        { output := successOutput name masters consents,
          exitCode := 0,
          loadedDotenv := true, connectAttempted := true,
          queriedMasters := true, queriedConsents := true,
          closedClient := true }

/-! ## Concrete worlds

Concrete environments used to witness the claim theorems.  Documents are
instantiated at `Nat`. -/

/-- A reachable database behind a URI whose trailing path segment is
`db`, holding two UploadMaster documents and no UploadConsent
documents. -/
def wOk : World Nat :=
  { envFileExists := true
    mongoUri := some (String.toList "mongodb://localhost:27017/db")
    connectOk := true
    connectError := []
    defaultDb := none
    uploadmasters := [1, 2]
    uploadconsents := [] }

/-- A reachable database whose two collections hold 60 documents each
(more than the 50-document query limit). -/
def wBig : World Nat :=
  { wOk with
    uploadmasters := List.range 60
    uploadconsents := (List.range 60).map (· + 100) }

/-- A URI that carries no default database and whose trailing path
segment is empty (the URI ends in `/`). -/
def wNoDb : World Nat :=
  { wOk with mongoUri := some (String.toList "mongodb://localhost:27017/") }

/-- The environment file `backend/.env` is missing. -/
def wNoEnv : World Nat :=
  { wOk with envFileExists := false }

/-- `backend/.env` exists but defines no `MONGODB_URI`. -/
def wNoUri : World Nat :=
  { wOk with mongoUri := none }

/-- `MONGODB_URI` is present but set to the empty string. -/
def wEmptyUri : World Nat :=
  { wOk with mongoUri := some [] }

/-- The database endpoint is unreachable: constructing the client or
pinging raises, with the given exception text. -/
def wDown : World Nat :=
  { wOk with
    connectOk := false
    connectError := String.toList "connection refused" }

/-! ## Properties of the Python-style splitter -/

theorem pySplit_ne_nil (sep : Char) (s : List Char) : pySplit sep s ≠ [] := by
  induction s with
  | nil => simp [pySplit]
  | cons c rest ih =>
    by_cases hc : c = sep
    · simp [pySplit, hc]
    · simp only [pySplit, if_neg hc]
      cases h : pySplit sep rest with
      | nil => simp
      | cons a t => simp

theorem pySplit_of_not_mem (sep : Char) (s : List Char) (h : sep ∉ s) :
    pySplit sep s = [s] := by
  induction s with
  | nil => rfl
  | cons c rest ih =>
    have hc : ¬ c = sep := fun hcc => h (by simp [hcc])
    have hr : sep ∉ rest := fun hm => h (List.mem_cons_of_mem _ hm)
    simp only [pySplit, if_neg hc, ih hr]

theorem two_le_length_pySplit (sep : Char) (s : List Char) (h : sep ∈ s) :
    2 ≤ (pySplit sep s).length := by
  induction s with
  | nil => simp at h
  | cons c rest ih =>
    by_cases hc : c = sep
    · subst hc
      have hne : pySplit c rest ≠ [] := pySplit_ne_nil c rest
      have hlen : 1 ≤ (pySplit c rest).length := List.length_pos.mpr hne
      have hsplit : pySplit c (c :: rest) = [] :: pySplit c rest := by
        simp [pySplit]
      rw [hsplit, List.length_cons]
      omega
    · have hm : sep ∈ rest := by
        rcases List.mem_cons.mp h with h1 | h2
        · exact absurd h1.symm hc
        · exact h2
      simp only [pySplit, if_neg hc]
      cases e : pySplit sep rest with
      | nil => exact absurd e (pySplit_ne_nil sep rest)
      | cons a t =>
        have h2 := ih hm
        rw [e] at h2
        simpa using h2

theorem getLastD_irrel {α : Type} (l : List α) (h : l ≠ []) (d₁ d₂ : α) :
    l.getLastD d₁ = l.getLastD d₂ := by
  cases l with
  | nil => exact absurd rfl h
  | cons a t => rw [List.getLastD_cons, List.getLastD_cons]

/-- Python's `s.split(sep)[0]` keeps exactly the characters before the
first occurrence of `sep`. -/
theorem pyHead_pySplit (sep : Char) (s : List Char) :
    pyHead (pySplit sep s) = s.takeWhile (fun c => ¬ c = sep) := by
  induction s with
  | nil => rfl
  | cons c rest ih =>
    by_cases hc : c = sep
    · subst hc
      simp [pySplit, pyHead, List.takeWhile_cons]
    · simp only [pySplit, if_neg hc]
      cases e : pySplit sep rest with
      | nil => exact absurd e (pySplit_ne_nil sep rest)
      | cons a t =>
        have ha : a = rest.takeWhile (fun c => ¬ c = sep) := by
          rw [← ih, e]
          rfl
        show pyHead ((c :: a) :: t) = _
        have hgoal : pyHead ((c :: a) :: t) = c :: a := rfl
        rw [hgoal, List.takeWhile_cons, ha]
        simp [hc]

/-- Python's `s.split(sep)[-1]` is the suffix of `s` after the last
occurrence of `sep` (all of `s` when `sep` does not occur). -/
theorem pyLast_pySplit (sep : Char) (s : List Char) :
    sep ∉ pyLast (pySplit sep s) ∧
      ((sep ∉ s ∧ pyLast (pySplit sep s) = s) ∨
        ∃ pre, s = pre ++ sep :: pyLast (pySplit sep s)) := by
  induction s with
  | nil => exact ⟨by simp [pySplit, pyLast], Or.inl ⟨by simp, rfl⟩⟩
  | cons c rest ih =>
    by_cases hc : c = sep
    · subst hc
      have hne : pySplit c rest ≠ [] := pySplit_ne_nil c rest
      have hsplit : pySplit c (c :: rest) = [] :: pySplit c rest := by
        simp [pySplit]
      have hlast : pyLast (pySplit c (c :: rest)) = pyLast (pySplit c rest) := by
        show (pySplit c (c :: rest)).getLastD [] = (pySplit c rest).getLastD []
        rw [hsplit, List.getLastD_cons]
      rcases ih with ⟨hmem, hdisj⟩
      refine ⟨hlast ▸ hmem, Or.inr ?_⟩
      rcases hdisj with ⟨hnm, heq⟩ | ⟨pre, hpre⟩
      · exact ⟨[], by rw [hlast, heq]; exact (List.nil_append _).symm⟩
      · refine ⟨c :: pre, ?_⟩
        rw [hlast]
        rw [List.cons_append]
        exact congrArg (c :: ·) hpre
    · by_cases hm : sep ∈ rest
      · obtain ⟨a, t, hat⟩ : ∃ a t, pySplit sep rest = a :: t := by
          cases e : pySplit sep rest with
          | nil => exact absurd e (pySplit_ne_nil sep rest)
          | cons a t => exact ⟨a, t, rfl⟩
        have ht : t ≠ [] := by
          have h2 := two_le_length_pySplit sep rest hm
          rw [hat] at h2
          simp only [List.length_cons] at h2
          intro hnil
          rw [hnil] at h2
          simp at h2
        have hlast : pyLast (pySplit sep (c :: rest)) = pyLast (pySplit sep rest) := by
          show (pySplit sep (c :: rest)).getLastD [] = (pySplit sep rest).getLastD []
          have hsplit : pySplit sep (c :: rest) = (c :: a) :: t := by
            simp only [pySplit, if_neg hc, hat]
          rw [hsplit, hat, List.getLastD_cons, List.getLastD_cons]
          exact getLastD_irrel _ ht _ _
        rcases ih with ⟨hmem, hdisj⟩
        refine ⟨hlast ▸ hmem, Or.inr ?_⟩
        rcases hdisj with ⟨hnm, _⟩ | ⟨pre, hpre⟩
        · exact absurd hm hnm
        · refine ⟨c :: pre, ?_⟩
          rw [hlast, List.cons_append]
          exact congrArg (c :: ·) hpre
      · have hns : sep ∉ c :: rest := by
          intro hmm
          rcases List.mem_cons.mp hmm with h1 | h2
          · exact hc h1.symm
          · exact hm h2
        have heq : pyLast (pySplit sep (c :: rest)) = c :: rest := by
          rw [pySplit_of_not_mem sep _ hns]
          rfl
        refine ⟨?_, Or.inl ⟨hns, heq⟩⟩
        rw [heq]
        exact hns

/-! ## The shape of every run

`main` is a linear procedure with early exits, so every run is either the
success record or one of the four failure records. -/

theorem run_spec {Doc : Type} (w : World Doc) :
    (∃ name, resolveDb w.defaultDb (w.mongoUri.getD []) = some name ∧
        w.envFileExists = true ∧ uriFalsy w.mongoUri = false ∧
        w.connectOk = true ∧
        run w = ⟨successOutput name (w.uploadmasters.take docLimit)
          (w.uploadconsents.take docLimit), 0, true, true, true, true, true⟩) ∨
      (run w = ⟨[Out.envFileNotFound envPath], 1,
          false, false, false, false, false⟩ ∨
        run w = ⟨[Out.mongoUriNotSet], 1, true, false, false, false, false⟩ ∨
        run w = ⟨[Out.connecting, Out.failedToConnect w.connectError], 1,
          true, true, false, false, false⟩ ∨
        run w = ⟨[Out.connecting, Out.couldNotDetermineDb,
          Out.errLine (String.toList "No database name in URI")], 1,
          true, true, false, false, false⟩) := by
  by_cases henv : w.envFileExists = true
  · by_cases huri : uriFalsy w.mongoUri = true
    · right; right; left
      simp [run, henv, huri]
    · by_cases hconn : w.connectOk = true
      · cases hdb : resolveDb w.defaultDb (w.mongoUri.getD []) with
        | none =>
          right; right; right; right
          simp [run, henv, huri, hconn, hdb]
        | some name =>
          left
          exact ⟨name, rfl, henv, by simpa using huri, hconn,
            by simp [run, henv, huri, hconn, hdb]⟩
      · right; right; right; left
        simp [run, henv, huri, hconn]
  · right; left
    simp [run, henv]

/-! ## The claims -/

/-- **C1.** For every run where the environment file exists with a
well-formed connection string, the database is reachable, and the two
collections contain `N₁` and `N₂` documents with `0 ≤ N₁, N₂ ≤ 50`, the
tool prints exactly the `N₁` documents of the first collection (or the
empty-result notice when `N₁ = 0`), then exactly the `N₂` documents of
the second collection (or the empty-result notice when `N₂ = 0`), and
the process exits with code 0. -/
theorem claim_C1 {Doc : Type} (w : World Doc) (name : List Char)
    (henv : w.envFileExists = true)
    (huri : uriFalsy w.mongoUri = false)
    (hconn : w.connectOk = true)
    (hdb : resolveDb w.defaultDb (w.mongoUri.getD []) = some name)
    (hn1 : w.uploadmasters.length ≤ 50)
    (hn2 : w.uploadconsents.length ≤ 50) :
    (run w).output =
      [Out.connecting, Out.connectedTo name, Out.masterHeader] ++
        (if w.uploadmasters.isEmpty then [Out.noMasters]
          else [Out.masterDocs w.uploadmasters]) ++
        [Out.consentHeader] ++
        (if w.uploadconsents.isEmpty then [Out.noConsents]
          else [Out.consentDocs w.uploadconsents]) ++
        [Out.done] ∧
      (run w).exitCode = 0 := by
  have hm : w.uploadmasters.take 50 = w.uploadmasters :=
    List.take_of_length_le hn1
  have hcs : w.uploadconsents.take 50 = w.uploadconsents :=
    List.take_of_length_le hn2
  have hrec : run w =
      ⟨successOutput name (w.uploadmasters.take docLimit)
        (w.uploadconsents.take docLimit), 0, true, true, true, true, true⟩ := by
    simp [run, henv, huri, hconn, hdb]
  have hout : (run w).output =
      successOutput name w.uploadmasters w.uploadconsents := by
    rw [hrec]
    show successOutput name (w.uploadmasters.take docLimit)
      (w.uploadconsents.take docLimit) = _
    rw [show docLimit = 50 from rfl, hm, hcs]
  exact ⟨by rw [hout, successOutput], by rw [hrec]⟩

theorem claim_C1_witness :
    wOk.envFileExists = true ∧ uriFalsy wOk.mongoUri = false ∧
      wOk.connectOk = true ∧
      resolveDb wOk.defaultDb (wOk.mongoUri.getD []) =
        some (String.toList "db") ∧
      wOk.uploadmasters.length ≤ 50 ∧ wOk.uploadconsents.length ≤ 50 ∧
      ((run wOk).output =
        [Out.connecting, Out.connectedTo (String.toList "db"),
          Out.masterHeader, Out.masterDocs [1, 2], Out.consentHeader,
          Out.noConsents, Out.done] ∧
        (run wOk).exitCode = 0) :=
  ⟨rfl, by decide, rfl, by decide, by decide, by decide,
    claim_C1 wOk (String.toList "db") rfl (by decide) rfl (by decide)
      (by decide) (by decide)⟩

/-- **C2.** For every connection string that embeds no default database
and whose trailing path segment is not parseable as a database name (on
a run that reaches name resolution: the environment file and URI are
present and the connection succeeds), the tool prints a
resolution-failure message and exits with code 1; it never proceeds to
query the collections. -/
theorem claim_C2 {Doc : Type} (w : World Doc)
    (henv : w.envFileExists = true)
    (huri : uriFalsy w.mongoUri = false)
    (hconn : w.connectOk = true)
    (hnodef : w.defaultDb = none)
    (hparse : parseDbFromUri (w.mongoUri.getD []) = none) :
    (run w).output = [Out.connecting, Out.couldNotDetermineDb,
        Out.errLine (String.toList "No database name in URI")] ∧
      (run w).exitCode = 1 ∧
      (run w).queriedMasters = false ∧ (run w).queriedConsents = false := by
  have hdb : resolveDb w.defaultDb (w.mongoUri.getD []) = none := by
    simp [resolveDb, hnodef, hparse]
  refine ⟨?_, ?_, ?_, ?_⟩ <;> simp [run, henv, huri, hconn, hdb]

theorem claim_C2_witness :
    wNoDb.defaultDb = none ∧
      parseDbFromUri (wNoDb.mongoUri.getD []) = none ∧
      ((run wNoDb).output = [Out.connecting, Out.couldNotDetermineDb,
          Out.errLine (String.toList "No database name in URI")] ∧
        (run wNoDb).exitCode = 1 ∧
        (run wNoDb).queriedMasters = false ∧
        (run wNoDb).queriedConsents = false) :=
  ⟨rfl, by decide,
    claim_C2 wNoDb rfl (by decide) rfl rfl (by decide)⟩

/-- **C5.** For every run where the environment file at the fixed
relative path does not exist, the tool prints a message naming the
expected file path and exits with code 1, without loading configuration
or attempting any connection. -/
theorem claim_C5 {Doc : Type} (w : World Doc)
    (henv : w.envFileExists = false) :
    (run w).output = [Out.envFileNotFound envPath] ∧
      (run w).exitCode = 1 ∧
      (run w).loadedDotenv = false ∧ (run w).connectAttempted = false := by
  refine ⟨?_, ?_, ?_, ?_⟩ <;> simp [run, henv]

theorem claim_C5_witness :
    wNoEnv.envFileExists = false ∧
      ((run wNoEnv).output = [Out.envFileNotFound envPath] ∧
        (run wNoEnv).exitCode = 1 ∧
        (run wNoEnv).loadedDotenv = false ∧
        (run wNoEnv).connectAttempted = false) :=
  ⟨rfl, claim_C5 wNoEnv rfl⟩

/-- **C6.** For every run where the environment file exists but the
connection-string variable is absent, the tool prints a message naming
the missing variable and exits with code 1, without attempting any
connection. -/
theorem claim_C6 {Doc : Type} (w : World Doc)
    (henv : w.envFileExists = true)
    (huri : w.mongoUri = none) :
    (run w).output = [Out.mongoUriNotSet] ∧
      (run w).exitCode = 1 ∧
      (run w).connectAttempted = false := by
  have h : uriFalsy w.mongoUri = true := by simp [uriFalsy, huri]
  refine ⟨?_, ?_, ?_⟩ <;> simp [run, henv, h]

theorem claim_C6_witness :
    wNoUri.envFileExists = true ∧ wNoUri.mongoUri = none ∧
      ((run wNoUri).output = [Out.mongoUriNotSet] ∧
        (run wNoUri).exitCode = 1 ∧
        (run wNoUri).connectAttempted = false) :=
  ⟨rfl, rfl, claim_C6 wNoUri rfl rfl⟩

/-- **C7.** For every run where opening the connection or the
lightweight ping fails, the tool prints the underlying error text and
exits with code 1, before any collection is queried. -/
theorem claim_C7 {Doc : Type} (w : World Doc)
    (henv : w.envFileExists = true)
    (huri : uriFalsy w.mongoUri = false)
    (hconn : w.connectOk = false) :
    (run w).output = [Out.connecting, Out.failedToConnect w.connectError] ∧
      (run w).exitCode = 1 ∧
      (run w).queriedMasters = false ∧ (run w).queriedConsents = false := by
  refine ⟨?_, ?_, ?_, ?_⟩ <;> simp [run, henv, huri, hconn]

theorem claim_C7_witness :
    wDown.envFileExists = true ∧ uriFalsy wDown.mongoUri = false ∧
      wDown.connectOk = false ∧
      ((run wDown).output =
          [Out.connecting, Out.failedToConnect (String.toList "connection refused")] ∧
        (run wDown).exitCode = 1 ∧
        (run wDown).queriedMasters = false ∧
        (run wDown).queriedConsents = false) :=
  ⟨rfl, by decide, rfl, claim_C7 wDown rfl (by decide) rfl⟩

/-- **C10.** For every run where the connection-string variable is
present in the environment but set to the empty string, the tool behaves
exactly as in the missing-variable case: it prints the message naming
the variable and exits with code 1 (the truthiness check `if not uri`
does not distinguish empty from absent). -/
theorem claim_C10 {Doc : Type} (w : World Doc)
    (henv : w.envFileExists = true)
    (hempty : w.mongoUri = some []) :
    run w = run { w with mongoUri := none } ∧
      (run w).output = [Out.mongoUriNotSet] ∧ (run w).exitCode = 1 := by
  refine ⟨?_, ?_, ?_⟩ <;> simp [run, henv, hempty, uriFalsy]

theorem claim_C10_witness :
    wEmptyUri.envFileExists = true ∧ wEmptyUri.mongoUri = some [] ∧
      (run wEmptyUri = run { wEmptyUri with mongoUri := none } ∧
        (run wEmptyUri).output = [Out.mongoUriNotSet] ∧
        (run wEmptyUri).exitCode = 1) :=
  ⟨rfl, rfl, claim_C10 wEmptyUri rfl rfl⟩

/-- **C3.** For every successful run, the target database name is
resolved by first preferring the default-database mechanism of the
connection string, and only when that yields no database by taking the
substring of the connection string after its last `/` and stripping
everything from the first `?` onward, using that (when non-empty) as the
database name. -/
theorem claim_C3 {Doc : Type} (w : World Doc)
    (hexit : (run w).exitCode = 0) :
    ∃ name, Out.connectedTo name ∈ (run w).output ∧
      ((∃ d, w.defaultDb = some d ∧ name = d) ∨
        (w.defaultDb = none ∧ name ≠ [] ∧
          ∃ seg, ('/' : Char) ∉ seg ∧
            ((('/' : Char) ∉ w.mongoUri.getD [] ∧ seg = w.mongoUri.getD []) ∨
              ∃ pre, w.mongoUri.getD [] = pre ++ '/' :: seg) ∧
            name = seg.takeWhile (fun c => ¬ c = '?'))) := by
  rcases run_spec w with ⟨name, hdb, henv, huri, hconn, hrun⟩ | hfail
  · refine ⟨name, ?_, ?_⟩
    · rw [hrun]
      simp [successOutput]
    · cases hdef : w.defaultDb with
      | some d =>
        simp only [resolveDb, hdef] at hdb
        exact Or.inl ⟨d, rfl, (Option.some.inj hdb).symm⟩
      | none =>
        simp only [resolveDb, hdef, parseDbFromUri] at hdb
        split at hdb
        · exact absurd hdb (by simp)
        · rename_i hne
          have hname :
              name = pyHead (pySplit '?'
                (pyLast (pySplit '/' (w.mongoUri.getD [])))) :=
            (Option.some.inj hdb).symm
          obtain ⟨hnm, hdisj⟩ := pyLast_pySplit '/' (w.mongoUri.getD [])
          refine Or.inr ⟨rfl, ?_, pyLast (pySplit '/' (w.mongoUri.getD [])),
            hnm, hdisj, ?_⟩
          · rw [hname]
            exact hne
          · rw [hname]
            exact pyHead_pySplit '?' _
  · exfalso
    rcases hfail with h | h | h | h <;> simp [h] at hexit

theorem claim_C3_witness :
    (run wOk).exitCode = 0 ∧
      ∃ name, Out.connectedTo name ∈ (run wOk).output ∧
        ((∃ d, wOk.defaultDb = some d ∧ name = d) ∨
          (wOk.defaultDb = none ∧ name ≠ [] ∧
            ∃ seg, ('/' : Char) ∉ seg ∧
              ((('/' : Char) ∉ wOk.mongoUri.getD [] ∧
                  seg = wOk.mongoUri.getD []) ∨
                ∃ pre, wOk.mongoUri.getD [] = pre ++ '/' :: seg) ∧
              name = seg.takeWhile (fun c => ¬ c = '?'))) :=
  ⟨by decide, claim_C3 wOk (by decide)⟩

/-- **C4.** For every collection holding more than 50 documents, the
tool prints exactly the first 50 documents in the order returned by the
unfiltered query, and never prints more than 50 documents per
collection. -/
theorem claim_C4 {Doc : Type} (w : World Doc)
    (hexit : (run w).exitCode = 0) :
    (50 < w.uploadmasters.length →
        Out.masterDocs (w.uploadmasters.take 50) ∈ (run w).output ∧
          (w.uploadmasters.take 50).length = 50) ∧
      (50 < w.uploadconsents.length →
        Out.consentDocs (w.uploadconsents.take 50) ∈ (run w).output ∧
          (w.uploadconsents.take 50).length = 50) ∧
      (∀ docs, Out.masterDocs docs ∈ (run w).output →
        docs = w.uploadmasters.take 50 ∧ docs.length ≤ 50) ∧
      (∀ docs, Out.consentDocs docs ∈ (run w).output →
        docs = w.uploadconsents.take 50 ∧ docs.length ≤ 50) := by
  rcases run_spec w with ⟨name, hdb, henv, huri, hconn, hrun⟩ | hfail
  · rw [show docLimit = 50 from rfl] at hrun
    rw [hrun]
    have hmlen : ∀ l : List Doc, 50 < l.length →
        ¬ (l.take 50).isEmpty = true := by
      intro l hl
      rw [List.isEmpty_iff]
      intro hnil
      have hlen := congrArg List.length hnil
      rw [List.length_take, List.length_nil] at hlen
      omega
    refine ⟨?_, ?_, ?_, ?_⟩
    · intro h50
      refine ⟨?_, ?_⟩
      · simp [successOutput, hmlen _ h50]
      · rw [List.length_take]
        omega
    · intro h50
      refine ⟨?_, ?_⟩
      · simp [successOutput, hmlen _ h50]
      · rw [List.length_take]
        omega
    · intro docs hmem
      by_cases hbm : (w.uploadmasters.take 50).isEmpty = true
      · by_cases hbc : (w.uploadconsents.take 50).isEmpty = true <;>
          simp [successOutput, hbm, hbc] at hmem
      · by_cases hbc : (w.uploadconsents.take 50).isEmpty = true <;>
        · simp [successOutput, hbm, hbc] at hmem
          subst hmem
          exact ⟨rfl, List.length_take_le 50 w.uploadmasters⟩
    · intro docs hmem
      by_cases hbc : (w.uploadconsents.take 50).isEmpty = true
      · by_cases hbm : (w.uploadmasters.take 50).isEmpty = true <;>
          simp [successOutput, hbm, hbc] at hmem
      · by_cases hbm : (w.uploadmasters.take 50).isEmpty = true <;>
        · simp [successOutput, hbm, hbc] at hmem
          subst hmem
          exact ⟨rfl, List.length_take_le 50 w.uploadconsents⟩
  · exfalso
    rcases hfail with h | h | h | h <;> simp [h] at hexit

theorem claim_C4_witness :
    (run wBig).exitCode = 0 ∧
      50 < wBig.uploadmasters.length ∧
      (Out.masterDocs (wBig.uploadmasters.take 50) ∈ (run wBig).output ∧
        (wBig.uploadmasters.take 50).length = 50) :=
  ⟨by decide, by decide, (claim_C4 wBig (by decide)).1 (by decide)⟩

/-- **C8.** For every run, either both collections are queried and their
results (documents or the empty-result notice) are printed, or the
process exits before querying either collection; there is no run in
which exactly one of the two collections' results is printed. -/
theorem claim_C8 {Doc : Type} (w : World Doc) :
    ((run w).queriedMasters = true ∧ (run w).queriedConsents = true ∧
        (Out.noMasters ∈ (run w).output ∨
          ∃ docs, Out.masterDocs docs ∈ (run w).output) ∧
        (Out.noConsents ∈ (run w).output ∨
          ∃ docs, Out.consentDocs docs ∈ (run w).output)) ∨
      ((run w).queriedMasters = false ∧ (run w).queriedConsents = false ∧
        (run w).exitCode = 1 ∧
        Out.noMasters ∉ (run w).output ∧
        (∀ docs, Out.masterDocs docs ∉ (run w).output) ∧
        Out.noConsents ∉ (run w).output ∧
        (∀ docs, Out.consentDocs docs ∉ (run w).output)) := by
  rcases run_spec w with ⟨name, hdb, henv, huri, hconn, hrun⟩ | hfail
  · left
    rw [hrun]
    refine ⟨rfl, rfl, ?_, ?_⟩
    · by_cases hbm : (w.uploadmasters.take docLimit).isEmpty = true
      · left
        simp [successOutput, hbm]
      · right
        exact ⟨w.uploadmasters.take docLimit, by simp [successOutput, hbm]⟩
    · by_cases hbc : (w.uploadconsents.take docLimit).isEmpty = true
      · left
        simp [successOutput, hbc]
      · right
        exact ⟨w.uploadconsents.take docLimit, by simp [successOutput, hbc]⟩
  · right
    rcases hfail with h | h | h | h <;>
    · rw [h]
      exact ⟨rfl, rfl, rfl, by simp, by simp, by simp, by simp⟩

/-- **C9.** For every run that reaches the printing of both collections'
results (the success path), the client connection is closed afterwards
and the process exits with code 0. -/
theorem claim_C9 {Doc : Type} (w : World Doc)
    (hq : (run w).queriedMasters = true ∧ (run w).queriedConsents = true) :
    (run w).closedClient = true ∧ (run w).exitCode = 0 ∧
      Out.done ∈ (run w).output := by
  rcases run_spec w with ⟨name, hdb, henv, huri, hconn, hrun⟩ | hfail
  · rw [hrun]
    refine ⟨rfl, rfl, ?_⟩
    simp [successOutput]
  · exfalso
    rcases hfail with h | h | h | h <;> simp [h] at hq

theorem claim_C9_witness :
    ((run wOk).queriedMasters = true ∧ (run wOk).queriedConsents = true) ∧
      ((run wOk).closedClient = true ∧ (run wOk).exitCode = 0 ∧
        Out.done ∈ (run wOk).output) :=
  ⟨⟨by decide, by decide⟩, claim_C9 wOk ⟨by decide, by decide⟩⟩

end PrintUploadDocs
